import Mathlib

/-!
Verification of the orchestration core of a multi-agent routing system:
the agent registry (`src/agents/registry.py`), the keyword classifier and
scoring router (`src/agents/router.py`), and the Supervisor state machine
(`src/agents/supervisor.py`).

The Python code is shallowly embedded: strings stay strings, `float`
scores become exact rationals (`ℚ`), Python dictionaries become ordered
association lists (Python dicts preserve insertion order), exceptions
become `Except`, and external collaborators (worker objects, the SQLite
statistics store, the preference configuration) become explicit function
parameters collected in an `Env` record.
-/

/-! ## Python string primitives -/

/-- Embedding of Python's `k in t` substring test on lists of characters:
`k` occurs as a contiguous sublist of `l` (the empty string is in every string). -/
def subOf (k : List Char) : List Char → Bool
  | [] => k.isEmpty
  | c :: rest => (k.isPrefixOf (c :: rest)) || subOf k rest

/-- Embedding of Python's `k in t` substring containment on strings. -/
def pyIn (k t : String) : Bool := subOf k.data t.data

/-- Embedding of Python's `str.lower()` (character-wise lowercasing). -/
def pyLower (s : String) : String := ⟨s.data.map Char.toLower⟩

/-- Lexicographic (code-point) strict comparison of character lists,
as Python compares strings. -/
def charsLt : List Char → List Char → Bool
  | [], [] => false
  | [], _ :: _ => true
  | _ :: _, [] => false
  | a :: as, b :: bs =>
    if a.toNat < b.toNat then true
    else if a.toNat = b.toNat then charsLt as bs
    else false

/-- Embedding of Python's `<` on strings (lexicographic by code point). -/
def strLtB (a b : String) : Bool := charsLt a.data b.data

/-! ## `classify_task_type` (src/agents/router.py) -/

/-- Marker list for the `docs` rule of `classify_task_type`. -/
def docs_markers : List String :=
  ["readme", "documentation", "docs", "guide", "installation",
   "інсталяц", "встанов", "документац", "гайд"]

/-- Marker list for the `explain` rule of `classify_task_type`. -/
def explain_markers : List String :=
  ["explain", "difference", "compare", "vs", "versus", "roles of",
   "summary", "summarize", "overview",
   "поясни", "що таке", "різниц", "порівняй", "огляд", "підсумуй"]

/-- Marker list for the `code` rule of `classify_task_type`. -/
def code_markers : List String :=
  ["code", "bug", "error", "traceback", "exception", "syntaxerror",
   "stack trace", "код", "помилка", "скрипт", "стек"]

/-- Marker list for the `db_analysis` rule of `classify_task_type`. -/
def db_markers : List String :=
  ["бд", "database", "датасет", "dataset", "runs", "запусків",
   "аналіз запусків"]

/-- Marker list for the `plan` rule of `classify_task_type`. -/
def plan_markers : List String :=
  ["plan", "planning", "roadmap", "outline",
   "план", "кроки", "стратег", "дорожня карта"]

/-- Marker list for the `meta` rule of `classify_task_type`. -/
def meta_markers : List String :=
  ["trainer", "meta", "аналіз агентів", "аналіз запусків",
   "оптимізація агентів"]

/-- `classify_task_type` from `src/agents/router.py`: keyword classification
of the task text, rules tried in source order
(docs, explain, code, db_analysis, plan, meta), default `"other"`.
`task or ""` is the identity on genuine strings. -/
def classify_task_type (task : String) : String :=
  let t := pyLower task
  if docs_markers.any (fun k => pyIn k t) then "docs"
  else if explain_markers.any (fun k => pyIn k t) then "explain"
  else if code_markers.any (fun k => pyIn k t) then "code"
  else if db_markers.any (fun k => pyIn k t) then "db_analysis"
  else if plan_markers.any (fun k => pyIn k t) then "plan"
  else if meta_markers.any (fun k => pyIn k t) then "meta"
  else "other"

/-- `infer_task_type` from `src/agents/router.py`: delegates to
`classify_task_type`. -/
def infer_task_type (task : String) : String := classify_task_type task

/-! ## The agent registry (src/agents/registry.py) -/

/-- An agent class as the registry sees it: its `name` class attribute and
an identifier standing for the constructor object itself. -/
structure AgentCls where
  name : String
  id : Nat
  deriving DecidableEq

/-- The module-level `_REGISTRY` dictionary: an insertion-ordered map from
lower-cased agent name to agent class. -/
def Registry : Type := List (String × AgentCls)

/-- Python dictionary assignment `d[k] = v`: replace in place if the key is
present, else append (dicts preserve insertion order). -/
def dictSet (k : String) (v : AgentCls) : List (String × AgentCls) → List (String × AgentCls)
  | [] => [(k, v)]
  | (k0, v0) :: rest => if k0 = k then (k0, v) :: rest else (k0, v0) :: dictSet k v rest

/-- Python dictionary lookup `d.get(k)` / `k in d` on the registry. -/
def dictFind (k : String) : List (String × AgentCls) → Option AgentCls
  | [] => Option.none
  | (k0, v0) :: rest => if k0 = k then some v0 else dictFind k rest

/-- `register_agent` from `src/agents/registry.py`: lower-case the class's
`name` attribute, raise `ValueError` when it is empty, otherwise store the
class under the lower-cased key (overwriting any existing entry). -/
def register_agent (reg : Registry) (cls : AgentCls) : Except String Registry :=
  let name := pyLower cls.name
  if name = "" then Except.error "Agent must have a non-empty name"
  else Except.ok (dictSet name cls reg)

/-- Ascending insertion by Python string `<` (used to embed `sorted(...)`). -/
def insStr (x : String) : List String → List String
  | [] => [x]
  | y :: ys => if strLtB x y then x :: y :: ys else y :: insStr x ys

/-- Embedding of Python's `sorted` on a list of strings. -/
def sortStrs : List String → List String
  | [] => []
  | x :: xs => insStr x (sortStrs xs)

/-- `list_agents` from `src/agents/registry.py`: the sorted registry keys. -/
def list_agents (reg : Registry) : List String :=
  sortStrs (reg.map Prod.fst)

/-- `get_agent_class` from `src/agents/registry.py`: look up the lower-cased
name; `none` stands for the raised `KeyError`. -/
def get_agent_class (reg : Registry) (name : String) : Option AgentCls :=
  dictFind (pyLower name) reg

/-- `create_agent` from `src/agents/registry.py`: instantiate the class found
by `get_agent_class`; instantiation itself is identity in this model. -/
def create_agent (reg : Registry) (name : String) : Option AgentCls :=
  get_agent_class reg name

/-! ## The router (src/agents/router.py) -/

/-- A Python exception value, as propagated through the orchestration core. -/
inductive PyErr where
  | keyError (msg : String)
  | attrError (msg : String)
  | agentError (code : Nat)
  deriving DecidableEq

/-- `DEFAULT_EXCLUDE` from `src/agents/router.py` (a set; modelled as a
list with membership semantics). -/
def DEFAULT_EXCLUDE : List String := ["planner", "critic"]

/-- A dynamically typed Python value, as produced by an agent's `run`. -/
inductive Val where
  | none
  | str (s : String)
  | vlist (items : List Val)
  | vdict (items : List (String × Val))

/-- The accumulating run context dictionary (`Context = Dict[str, Any]`). -/
def Ctx : Type := List (String × Val)

/-- The external collaborators of the routing core, made explicit:
the registered agent names (`list_agents()`, already sorted), each worker's
`can_handle` (an exception becomes `Except.error`), the per-task-type usage
statistics `get_solver_stats_by_task_type` from `db.py`, the
`preferred_task_types` configuration read by `_load_agent_preferences`,
each worker's `run` (with the memory object fixed inside the closure), and
each worker's optional `revise` attribute. -/
structure Env where
  agents : List String
  canHandle : String → String → Except PyErr ℚ
  statsFor : String → List (String × Nat)
  prefs : List (String × List String)
  runAgent : String → String → Ctx → Except PyErr Val
  reviseOf : String → Option (String → String → Except PyErr String)

/-- `stats.get(name, 0)` on the usage-statistics dictionary. -/
def statGet (name : String) : List (String × Nat) → Nat
  | [] => 0
  | (k, v) :: rest => if k = name then v else statGet name rest

/-- `max(stats.values())` (meaningful only for non-empty `stats`). -/
def maxVal : List (String × Nat) → Nat
  | [] => 0
  | (_, v) :: rest => max v (maxVal rest)

/-- `agent_prefs.get(name)` on the preference configuration. -/
def prefGet (name : String) : List (String × List String) → Option (List String)
  | [] => Option.none
  | (k, v) :: rest => if k = name then some v else prefGet name rest

/-- The `try: base_score = float(agent.can_handle(...)) except: 0.0` part of
the scoring loop of `rank_agents`. -/
def baseScoreOf (env : Env) (task : String) (name : String) : ℚ :=
  match env.canHandle name task with
  | Except.ok v => v
  | Except.error _ => 0

/-- The historical-usage bonus of the scoring loop of `rank_agents`. -/
def usageBonusOf (stats : List (String × Nat)) (max_count : Nat)
    (name : String) : ℚ :=
  if stats ≠ [] ∧ 0 < max_count then
    let cnt := statGet name stats
    if 0 < cnt then (0.2 : ℚ) * ((cnt : ℚ) / (max_count : ℚ)) else 0
  else 0

/-- The `preferred_task_types` bonus of the scoring loop of `rank_agents`. -/
def prefBonusOf (env : Env) (task_type : String) (name : String) : ℚ :=
  match prefGet name env.prefs with
  | some prefs => if prefs ≠ [] ∧ task_type ∈ prefs then (0.3 : ℚ) else 0
  | Option.none => 0

/-- The body of the scoring loop of `rank_agents`: base score (`0.0` when
`can_handle` raises), plus historical-usage bonus, plus preference bonus. -/
def scoreOf (env : Env) (task : String) (task_type : String)
    (stats : List (String × Nat)) (max_count : Nat) (name : String) : ℚ :=
  baseScoreOf env task name + usageBonusOf stats max_count name
    + prefBonusOf env task_type name

/-- Stable insertion of one scored candidate into a list sorted descending
by score: the element passes over strictly greater scores and lands before
the first score it is `≥` to, preserving input order on exact ties. -/
def insDesc (x : String × ℚ) : List (String × ℚ) → List (String × ℚ)
  | [] => [x]
  | y :: ys => if y.2 ≤ x.2 then x :: y :: ys else y :: insDesc x ys

/-- `scores.sort(key=lambda x: x[1], reverse=True)`: Python's stable sort,
descending by score. -/
def sortDesc : List (String × ℚ) → List (String × ℚ)
  | [] => []
  | x :: xs => insDesc x (sortDesc xs)

/-- `rank_agents` from `src/agents/router.py`: build the union of
`DEFAULT_EXCLUDE` and the caller's `exclude`, classify the task, fetch the
usage statistics and the preference configuration, score every registered
non-excluded agent, and stable-sort descending by score. -/
def rank_agents (env : Env) (task : String) (exclude : List String) :
    List (String × ℚ) :=
  let ex := DEFAULT_EXCLUDE ++ exclude
  let task_type := classify_task_type task
  let stats := env.statsFor task_type
  let max_count := if stats = [] then 0 else maxVal stats
  let scores := env.agents.filterMap fun name =>
    if name ∈ ex then Option.none
    else some (name, scoreOf env task task_type stats max_count name)
  sortDesc scores

/-- `pick_top` from `src/agents/router.py`: the names of the first `k`
ranked candidates whose score is positive. -/
def pick_top (env : Env) (task : String) (k : Nat) (exclude : List String) :
    List String :=
  let ranked := rank_agents env task exclude
  ((ranked.take k).filter fun p => 0 < p.2).map Prod.fst

/-! ## The Supervisor (src/agents/supervisor.py) -/

/-- `TEAM_PROFILES` from `src/agents/supervisor.py`: the static
profile-name → preferred-worker-list table. -/
def TEAM_PROFILES : List (String × List String) :=
  [("docs", ["docs", "writer", "analyst"]),
   ("explain", ["explainer", "analyst"]),
   ("planning", ["analyst", "explainer"]),
   ("code", ["coder", "analyst"])]

/-- `TEAM_PROFILES.get(profile, [])`. -/
def profilePreferred (profile : String) : List String :=
  match TEAM_PROFILES.find? (fun p => p.1 = profile) with
  | some p => p.2
  | Option.none => []

/-- `CRITIC_TASK_TYPES` from `src/agents/supervisor.py`. -/
def CRITIC_TASK_TYPES : List String :=
  ["plan", "explain", "docs", "code", "db_analysis", "meta"]

/-- Docs markers of `infer_team_profile` (supervisor.py). -/
def team_docs_markers : List String :=
  ["readme", "documentation", "docs", "guide", "installation",
   "інсталяц", "встанов", "документац", "гайд"]

/-- Code markers of `infer_team_profile` (supervisor.py); note this rule is
tried BEFORE the explain rule, unlike in `classify_task_type`. -/
def team_code_markers : List String :=
  ["traceback", "exception", "error", "bug", "fix", "refactor",
   "python", "javascript", "typescript", "sql", "api",
   "код", "скрипт", "помилка", "виправ"]

/-- Explain markers of `infer_team_profile` (supervisor.py). -/
def team_explain_markers : List String :=
  ["explain", "difference", "compare", "why", "how", "vs", "versus",
   "summary", "summarize", "overview", "roles of",
   "поясни", "різниц", "порівняй", "чому", "як працює", "підсумуй", "огляд"]

/-- Planning markers of `infer_team_profile` (supervisor.py). -/
def team_planning_markers : List String :=
  ["plan", "planning", "strategy", "roadmap", "outline",
   "план", "сплануй", "стратег", "роадмап", "дорожня карта"]

/-- `infer_team_profile` from `src/agents/supervisor.py`: its own keyword
classification, with precedence docs, code, explain, planning, else
`"general"`. -/
def infer_team_profile (task : String) : String :=
  let t := pyLower task
  if team_docs_markers.any (fun m => pyIn m t) then "docs"
  else if team_code_markers.any (fun m => pyIn m t) then "code"
  else if team_explain_markers.any (fun m => pyIn m t) then "explain"
  else if team_planning_markers.any (fun m => pyIn m t) then "planning"
  else "general"

/-- The `Supervisor` object after `__init__` ran: `team_size` is already
normalized to `max(1, int(team_size))`, and `solver_exclude` is already the
set built from the constructor argument. -/
structure Supervisor where
  planner_name : String := "planner"
  critic_name : String := "critic"
  solver_name : String := "analyst"
  synthesizer_name : String := "synthesizer"
  auto_solver : Bool := false
  auto_team : Bool := false
  team_size : Nat := 2
  use_team_profiles : Bool := true
  solver_exclude : List String := ["planner", "critic", "synthesizer"]

/-- `Supervisor.__init__`: normalizes `team_size` through `max(1, ...)` and
replaces a `None` or empty `solver_exclude` argument (both falsy) by the
default `["planner", "critic", "synthesizer"]`. -/
def Supervisor.init (planner_name critic_name solver_name synthesizer_name : String)
    (auto_solver auto_team : Bool) (team_size : Int) (use_team_profiles : Bool)
    (solver_exclude : Option (List String)) : Supervisor :=
  { planner_name, critic_name, solver_name, synthesizer_name,
    auto_solver, auto_team,
    team_size := (max 1 team_size).toNat,
    use_team_profiles,
    solver_exclude :=
      match solver_exclude with
      | some l => if l = [] then ["planner", "critic", "synthesizer"] else l
      | Option.none => ["planner", "critic", "synthesizer"] }

/-- The code-marker list that the fast path of `Supervisor._pick_solver`
tests (a second literal copy of the same list in the source). -/
def pick_solver_code_markers : List String :=
  ["traceback", "exception", "error", "bug", "fix", "refactor",
   "python", "javascript", "typescript", "sql", "api",
   "код", "скрипт", "помилка", "виправ"]

/-- The `for name, score in ranked:` loop of `_pick_solver`: first candidate
not in `solver_exclude` whose score is positive. -/
def firstRanked (excl : List String) : List (String × ℚ) → Option String
  | [] => Option.none
  | (name, score) :: rest =>
    if name ∈ excl then firstRanked excl rest
    else if 0 < score then some name
    else firstRanked excl rest

/-- The fast-path test of `Supervisor._pick_solver`: the lower-cased task
contains a code marker, and `coder` is registered (`t` and `available` in
the source) and not excluded. -/
def Supervisor.coderFastPath (s : Supervisor) (env : Env) (task : String) : Prop :=
  (pick_solver_code_markers.any fun m => pyIn m (pyLower task)) = true
    ∧ "coder" ∈ env.agents ∧ "coder" ∉ s.solver_exclude

instance (s : Supervisor) (env : Env) (task : String) :
    Decidable (s.coderFastPath env task) := by
  unfold Supervisor.coderFastPath
  infer_instance

/-- `Supervisor._pick_solver`: fixed solver when auto-selection is off; a
fast path to `coder` for code-looking tasks; otherwise the first positive,
non-excluded ranked candidate; fallback to the configured solver name. -/
def Supervisor.pick_solver (s : Supervisor) (env : Env) (task : String) : String :=
  if s.auto_solver = false then s.solver_name
  else if s.coderFastPath env task then "coder"
  else
    match firstRanked s.solver_exclude (rank_agents env task []) with
    | some name => name
    | Option.none => s.solver_name

/-- The loop of `Supervisor._seed_team_by_profile`: keep profile-preferred
names that are not excluded, currently registered, and not yet in the team. -/
def seedLoop (excl avail : List String) : List String → List String → List String
  | [], team => team
  | n :: rest, team =>
    if n ∈ excl then seedLoop excl avail rest team
    else if n ∉ avail then seedLoop excl avail rest team
    else if n ∈ team then seedLoop excl avail rest team
    else seedLoop excl avail rest (team ++ [n])

/-- `Supervisor._seed_team_by_profile`. -/
def Supervisor.seed_team (s : Supervisor) (env : Env) (profile : String) : List String :=
  seedLoop s.solver_exclude env.agents (profilePreferred profile) []

/-- The router-fill loop of `Supervisor._pick_team`: walk the ranking,
skip excluded names, duplicates and non-positive scores, and stop as soon
as the team reaches `team_size`. -/
def fillLoop (excl : List String) (teamSize : Nat) :
    List (String × ℚ) → List String → List String
  | [], team => team
  | (name, score) :: rest, team =>
    if name ∈ excl ∨ name ∈ team then fillLoop excl teamSize rest team
    else if score ≤ 0 then fillLoop excl teamSize rest team
    else
      let team' := team ++ [name]
      if teamSize ≤ team'.length then team' else fillLoop excl teamSize rest team'

/-- The `profile` local of `Supervisor._pick_team`. -/
def Supervisor.teamProfile (s : Supervisor) (task : String) : String :=
  if s.use_team_profiles then infer_team_profile task else "general"

/-- The `team` local of `Supervisor._pick_team` after profile seeding. -/
def Supervisor.teamSeeded (s : Supervisor) (env : Env) (task : String) : List String :=
  if s.teamProfile task ≠ "general" then s.seed_team env (s.teamProfile task) else []

/-- The `team` local of `Supervisor._pick_team` after the router fill
(entered only while the team is still below `team_size`). -/
def Supervisor.teamFilled (s : Supervisor) (env : Env) (task : String) : List String :=
  let team := s.teamSeeded env task
  if team.length < s.team_size then
    fillLoop s.solver_exclude s.team_size (rank_agents env task []) team
  else team

/-- The `team` local of `Supervisor._pick_team` after the empty-team
fallback to the single configured solver. -/
def Supervisor.teamFinal (s : Supervisor) (env : Env) (task : String) : List String :=
  let team := s.teamFilled env task
  if team = [] then [s.solver_name] else team

/-- `Supervisor._pick_team`: profile seeding, router fill, fallback to the
single configured solver, and truncation to `team_size`. -/
def Supervisor.pick_team (s : Supervisor) (env : Env) (task : String) :
    List String × String :=
  ((s.teamFinal env task).take s.team_size, s.teamProfile task)

/-! ## Dynamic values and the run pipeline (src/agents/supervisor.py) -/

/-- Python truthiness of a dynamic value (`None`, `""`, `[]` and
the empty dict are falsy). -/
def pyTruthy : Val → Bool
  | Val.none => false
  | Val.str s => s ≠ ""
  | Val.vlist items => !items.isEmpty
  | Val.vdict items => !items.isEmpty

/-- Join a list of strings with a separator (Python's `sep.join(...)`). -/
def joinWith (sep : String) : List String → String
  | [] => ""
  | [x] => x
  | x :: y :: rest => x ++ sep ++ joinWith sep (y :: rest)

/-- The whitespace characters that `str.strip()` removes (the ones relevant
to the texts this program builds). -/
def isPySpace (c : Char) : Bool :=
  c = ' ' || c = '\t' || c = '\n' || c = '\r'

/-- Embedding of Python's `str.strip()`. -/
def pyStrip (s : String) : String :=
  ⟨((s.data.dropWhile isPySpace).reverse.dropWhile isPySpace).reverse⟩

mutual

/-- Python's `str(...)` on a dynamic value (container rendering follows
Python's bracketed form; quoting of nested strings is not reproduced, which
none of the verified claims observe). -/
def pyStr : Val → String
  | Val.none => "None"
  | Val.str s => s
  | Val.vlist items => "[" ++ pyStrList items ++ "]"
  | Val.vdict items => "\x7b" ++ pyStrDict items ++ "\x7d"

/-- Comma-joined rendering of list items. -/
def pyStrList : List Val → String
  | [] => ""
  | [v] => pyStr v
  | v :: w :: rest => pyStr v ++ ", " ++ pyStrList (w :: rest)

/-- Comma-joined rendering of dict items. -/
def pyStrDict : List (String × Val) → String
  | [] => ""
  | [(k, v)] => k ++ ": " ++ pyStr v
  | (k, v) :: w :: rest => k ++ ": " ++ pyStr v ++ ", " ++ pyStrDict (w :: rest)

end

/-- Python dict assignment `d[k] = v` on a context / dynamic dictionary. -/
def ctxSet (k : String) (v : Val) : List (String × Val) → List (String × Val)
  | [] => [(k, v)]
  | (k0, v0) :: rest => if k0 = k then (k0, v) :: rest else (k0, v0) :: ctxSet k v rest

/-- Python dict lookup `d.get(k, default)` on a dynamic dictionary. -/
def vdictGet (k : String) (dflt : Val) : List (String × Val) → Val
  | [] => dflt
  | (k0, v0) :: rest => if k0 = k then v0 else vdictGet k dflt rest

/-- `value.get(key, default)` on a dynamic value: raises (`AttributeError`)
unless the value is a dict. -/
def pyGet (v : Val) (k : String) (dflt : Val) : Except PyErr Val :=
  match v with
  | Val.vdict items => Except.ok (vdictGet k dflt items)
  | _ => Except.error (PyErr.attrError "get")

/-- `create_agent(name)` as the Supervisor uses it: a `KeyError` when the
name is not registered, nothing otherwise (instantiation has no effect the
core observes). -/
def createAgentE (env : Env) (name : String) : Except PyErr Unit :=
  if name ∈ env.agents then Except.ok () else Except.error (PyErr.keyError name)

/-- Python dict assignment `d[k] = v` on the string-valued
`team_outputs` dictionary. -/
def outSet (k v : String) : List (String × String) → List (String × String)
  | [] => [(k, v)]
  | (k0, v0) :: rest => if k0 = k then (k0, v) :: rest else (k0, v0) :: outSet k v rest

/-- The team execution loop of `Supervisor.run`: create and run each team
member in order, collecting `team_outputs[name] = out`; any exception
propagates. -/
def runTeamLoop (env : Env) (task : String) (ctx : Ctx) :
    List String → List (String × String) → Except PyErr (List (String × String))
  | [], acc => Except.ok acc
  | name :: rest, acc => do
    let _ ← createAgentE env name
    let res ← env.runAgent name task ctx
    let out := match res with | Val.str s => s | v => pyStr v
    runTeamLoop env task ctx rest (outSet name out acc)

/-- `"\n".join(f"- {n}" for n in notes)` / `str(notes) if notes else
"- Looks ok."`: the critique text computed from the critic's `notes`. -/
def critiqueTextOf (notes : Val) : String :=
  match notes with
  | Val.vlist l => joinWith "\n" (l.map fun n => "- " ++ pyStr n)
  | v => if pyTruthy v then pyStr v else "- Looks ok."

/-- The critic phase shared by both modes of `Supervisor.run`: run the
critic, default its falsy output to `{}`, and extract `notes` and `tags`;
returns the critique text and the tags. -/
def runCriticPhase (env : Env) (critic_name task : String) (ctx : Ctx) :
    Except PyErr (String × Val) := do
  let crit_res ← env.runAgent critic_name task ctx
  let crit_data := if pyTruthy crit_res then crit_res else Val.vdict []
  let notes ← pyGet crit_data "notes" (Val.vlist [])
  let tags ← pyGet crit_data "tags" (Val.vlist [])
  Except.ok (critiqueTextOf notes, tags)

/-- The fixed auto-skip critique text (quote characters around the task
type are omitted from the literal). -/
def autoSkipText (task_type : String) : String :=
  "- Auto-skip Critic for non-critical task_type=" ++ task_type ++ "."

/-- The dictionary `Supervisor.run` returns. Team-only keys (`team_agents`,
`team_profile`, `team_draft`) are `none` in single-solver mode, where the
returned dict does not contain them. -/
structure RunResult where
  task : String
  task_type : String
  plan : List Val
  team_agents : Option (List String)
  team_profile : Option String
  solver_agent : String
  team_draft : Option String
  draft : String
  critique : String
  critique_tags : Val
  final : String
  available_agents : List String

/-- `Supervisor.run` from `src/agents/supervisor.py`: classify once, run the
planner, then either the team pipeline (team run loop, preliminary
synthesis, conditional critique, final synthesis) or the single-solver
pipeline (pick solver, draft, conditional critique, revise); exceptions
from any `run`/`revise` call propagate. -/
def Supervisor.run (s : Supervisor) (env : Env) (task : String) :
    Except PyErr RunResult := do
  let task_type := infer_task_type task
  let ctx0 : Ctx := ctxSet "task_type" (Val.str task_type) []
  let need_critic := task_type ∈ CRITIC_TASK_TYPES
  let _ ← createAgentE env s.planner_name
  let _ ← createAgentE env s.critic_name
  let plan_res ← env.runAgent s.planner_name task ctx0
  let plan := match plan_res with | Val.vlist l => l | _ => []
  let ctx1 := ctxSet "plan" (Val.vlist plan) ctx0
  if s.auto_team then
    let tp := s.pick_team env task
    let team_names := tp.1
    let team_outputs ← runTeamLoop env task ctx1 team_names []
    let ctx2 := ctxSet "team_outputs"
      (Val.vdict (team_outputs.map fun p => (p.1, Val.str p.2))) ctx1
    let team_draft := pyStrip (joinWith "\n\n"
      (team_outputs.map fun p => "## " ++ p.1 ++ " draft\n" ++ p.2))
    let _ ← createAgentE env s.synthesizer_name
    let prelim_res ← env.runAgent s.synthesizer_name task ctx2
    let prelim := match prelim_res with | Val.str str => str | _ => team_draft
    let ctx3 := ctxSet "draft" (Val.str prelim) ctx2
    let ct ←
      if need_critic then runCriticPhase env s.critic_name task ctx3
      else Except.ok (autoSkipText task_type, Val.vlist [])
    let ctx4 := ctxSet "critique_text" (Val.str ct.1) ctx3
    let final_res ← env.runAgent s.synthesizer_name task ctx4
    let final := match final_res with | Val.str str => str | _ => prelim
    Except.ok
      { task, task_type, plan,
        team_agents := some team_names, team_profile := some tp.2,
        solver_agent := s.synthesizer_name, team_draft := some team_draft,
        draft := prelim, critique := ct.1, critique_tags := ct.2,
        final, available_agents := env.agents }
  else
    let solver_name := s.pick_solver env task
    let _ ← createAgentE env solver_name
    let draft_res ← env.runAgent solver_name task ctx1
    let draft := match draft_res with | Val.str str => str | v => pyStr v
    let ctx2 := ctxSet "draft" (Val.str draft) ctx1
    let ct ←
      if need_critic then runCriticPhase env s.critic_name task ctx2
      else Except.ok (autoSkipText task_type, Val.vlist [])
    let final ←
      match env.reviseOf solver_name with
      | some rev => rev draft ct.1
      | Option.none => Except.ok (draft ++ "\n\n" ++ ct.1)
    Except.ok
      { task, task_type, plan,
        team_agents := Option.none, team_profile := Option.none,
        solver_agent := solver_name, team_draft := Option.none,
        draft, critique := ct.1, critique_tags := ct.2,
        final, available_agents := env.agents }

/-! ## Specification-side definitions, derived views and concrete
environments used by the claims -/

/-- The final score `rank_agents` assigns to a (non-excluded) worker name,
with the task-type, statistics and `max_count` computations inlined. -/
def rankScore (env : Env) (task : String) (name : String) : ℚ :=
  let task_type := classify_task_type task
  let stats := env.statsFor task_type
  let max_count := if stats = [] then 0 else maxVal stats
  scoreOf env task task_type stats max_count name

/-- The final score exactly as the specification words it: base capability
score, plus `0.2 * (worker_count / max_count)` when `max_count > 0` (else
`0`), plus a flat `0.3` when the task type is in the worker's configured
preferred set. -/
def specFinalScore (env : Env) (task : String) (name : String) : ℚ :=
  let task_type := classify_task_type task
  let stats := env.statsFor task_type
  let max_count := if stats = [] then 0 else maxVal stats
  baseScoreOf env task name
    + (if 0 < max_count then
        (0.2 : ℚ) * ((statGet name stats : ℚ) / (max_count : ℚ)) else 0)
    + (if task_type ∈ (prefGet name env.prefs).getD [] then (0.3 : ℚ) else 0)


/-- The registries reachable by a sequence of successful `register_agent`
calls starting from the empty module-level dictionary. -/
inductive Built : Registry → Prop where
  | nil : Built []
  | step {r r' : Registry} (cls : AgentCls) : Built r →
      register_agent r cls = Except.ok r' → Built r'


/-- The solver choice exactly as the specification words the non-fast-path
case: the first ranked candidate that is outside the exclusion set and has
positive score. -/
def specFirstSolver (excl : List String) (ranked : List (String × ℚ)) :
    Option String :=
  ((ranked.filter fun p => decide (p.1 ∉ excl) && decide (0 < p.2)).map
    Prod.fst).head?


/-! ## Ordered-rule evaluation (the specification's view of the two
keyword classifiers) and concrete environments -/

/-- Top-to-bottom evaluation of an ordered list of
`(label, marker set)` rules: the first rule with a marker occurring in the
(already lower-cased) text wins, else the default label. -/
def evalRules (dflt : String) (t : String) : List (String × List String) → String
  | [] => dflt
  | (label, markers) :: rest =>
    if markers.any (fun k => pyIn k t) then label else evalRules dflt t rest

/-- The rule table of `classify_task_type` in its fixed precedence order. -/
def classifyRuleTable : List (String × List String) :=
  [("docs", docs_markers), ("explain", explain_markers),
   ("code", code_markers), ("db_analysis", db_markers),
   ("plan", plan_markers), ("meta", meta_markers)]

/-- The rule table of `infer_team_profile` in its fixed precedence order
(code before explain, unlike `classify_task_type`). -/
def teamProfileRuleTable : List (String × List String) :=
  [("docs", team_docs_markers), ("code", team_code_markers),
   ("explain", team_explain_markers), ("planning", team_planning_markers)]

/-- A concrete external environment: only the synthesizer agent is
registered; its `can_handle` returns `0.0` exactly as
`SynthesizerAgent.can_handle` does in `src/agents/synthesizer.py`. -/
def envSynth : Env :=
  { agents := ["synthesizer"],
    canHandle := fun _ _ => Except.ok 0,
    statsFor := fun _ => [],
    prefs := [],
    runAgent := fun _ _ _ => Except.ok (Val.str "out"),
    reviseOf := fun _ => Option.none }

/-- A concrete external environment with an analyst (capability 1.0) and a
coder (capability 0.0), no usage statistics and no preferences. -/
def env4 : Env :=
  { agents := ["analyst", "coder"],
    canHandle := fun n _ => Except.ok (if n = "analyst" then 1 else 0),
    statsFor := fun _ => [],
    prefs := [],
    runAgent := fun _ _ _ => Except.ok (Val.str "out"),
    reviseOf := fun _ => Option.none }

/-- A concrete external environment whose single worker's `can_handle`
always raises. -/
def envErr : Env :=
  { agents := ["analyst"],
    canHandle := fun _ _ => Except.error (PyErr.agentError 7),
    statsFor := fun _ => [],
    prefs := [],
    runAgent := fun _ _ _ => Except.ok Val.none,
    reviseOf := fun _ => Option.none }

/-- A Supervisor with auto solver selection enabled and the default
configuration otherwise. -/
def cfg4 : Supervisor := { auto_solver := true }

/-- A Supervisor with the default configuration (team profiles enabled). -/
def cfg5 : Supervisor := {}

/-! ## Lemmas about the stable descending sort -/

theorem mem_insDesc {z x : String × ℚ} {l : List (String × ℚ)} :
    z ∈ insDesc x l ↔ z = x ∨ z ∈ l := by
  induction l with
  | nil => simp [insDesc]
  | cons y ys ih =>
    simp only [insDesc]
    split
    · simp [List.mem_cons]
    · simp only [List.mem_cons, ih]
      tauto

theorem mem_sortDesc {z : String × ℚ} {l : List (String × ℚ)} :
    z ∈ sortDesc l ↔ z ∈ l := by
  induction l with
  | nil => simp [sortDesc]
  | cons x xs ih => simp [sortDesc, mem_insDesc, ih]

theorem pairwise_insDesc {S : (String × ℚ) → (String × ℚ) → Prop}
    {x : String × ℚ} {l : List (String × ℚ)}
    (hl : l.Pairwise (fun a b => b.2 < a.2 ∨ (a.2 = b.2 ∧ S a b)))
    (hx : ∀ y ∈ l, S x y) :
    (insDesc x l).Pairwise (fun a b => b.2 < a.2 ∨ (a.2 = b.2 ∧ S a b)) := by
  induction l with
  | nil => simp [insDesc]
  | cons y ys ih =>
    rcases List.pairwise_cons.1 hl with ⟨hy, hys⟩
    simp only [insDesc]
    split
    next hle =>
      refine List.pairwise_cons.2 ⟨?_, hl⟩
      intro z hz
      rcases List.mem_cons.1 hz with rfl | hz'
      · rcases lt_or_eq_of_le hle with h | h
        · exact Or.inl h
        · exact Or.inr ⟨h.symm, hx _ (List.mem_cons_self _ _)⟩
      · rcases hy z hz' with h | ⟨heq, _⟩
        · exact Or.inl (lt_of_lt_of_le h hle)
        · rcases lt_or_eq_of_le ((le_of_eq heq.symm).trans hle) with h | h
          · exact Or.inl h
          · exact Or.inr ⟨h.symm, hx _ hz⟩
    next hgt =>
      refine List.pairwise_cons.2
        ⟨?_, ih hys (fun z hz => hx z (List.mem_cons_of_mem _ hz))⟩
      intro z hz
      rcases mem_insDesc.1 hz with rfl | hz'
      · exact Or.inl (lt_of_not_le hgt)
      · exact hy z hz'

theorem pairwise_sortDesc {S : (String × ℚ) → (String × ℚ) → Prop}
    {l : List (String × ℚ)} (hl : l.Pairwise S) :
    (sortDesc l).Pairwise (fun a b => b.2 < a.2 ∨ (a.2 = b.2 ∧ S a b)) := by
  induction l with
  | nil => simp [sortDesc]
  | cons x xs ih =>
    rcases List.pairwise_cons.1 hl with ⟨hx, hxs⟩
    exact pairwise_insDesc (ih hxs) (fun y hy => hx y (mem_sortDesc.1 hy))

theorem sortDesc_sorted (l : List (String × ℚ)) :
    (sortDesc l).Pairwise (fun a b => b.2 ≤ a.2) := by
  have htriv : l.Pairwise (fun _ _ => True) := by
    induction l with
    | nil => simp
    | cons x xs ih => exact List.pairwise_cons.2 ⟨fun _ _ => trivial, ih⟩
  refine (pairwise_sortDesc htriv).imp ?_
  rintro a b (h | ⟨h, -⟩)
  · exact le_of_lt h
  · exact le_of_eq h.symm

/-! ## Characterization of `rank_agents` -/

theorem usageBonusOf_eq (stats : List (String × Nat)) (name : String) :
    usageBonusOf stats (if stats = [] then 0 else maxVal stats) name =
      (if 0 < (if stats = [] then 0 else maxVal stats) then
        (0.2 : ℚ) * ((statGet name stats : ℚ)
          / ((if stats = [] then 0 else maxVal stats : Nat) : ℚ)) else 0) := by
  by_cases hs : stats = []
  · subst hs
    simp [usageBonusOf]
  · simp only [usageBonusOf, if_neg hs]
    by_cases hm : 0 < maxVal stats
    · simp only [ne_eq, hs, not_false_iff, true_and, if_pos hm]
      by_cases hc : 0 < statGet name stats
      · simp [hc]
      · have hc0 : statGet name stats = 0 := Nat.eq_zero_of_not_pos hc
        simp [hc, hc0]
    · simp [hs, hm]

theorem prefBonusOf_eq (env : Env) (task_type name : String) :
    prefBonusOf env task_type name =
      (if task_type ∈ (prefGet name env.prefs).getD [] then (0.3 : ℚ) else 0) := by
  unfold prefBonusOf
  cases h : prefGet name env.prefs with
  | none => simp
  | some prefs =>
    by_cases hmem : task_type ∈ prefs
    · simp [hmem, List.ne_nil_of_mem hmem]
    · simp [hmem]

theorem rankScore_eq_specFinalScore (env : Env) (task name : String) :
    rankScore env task name = specFinalScore env task name := by
  simp only [rankScore, specFinalScore, scoreOf]
  rw [usageBonusOf_eq, prefBonusOf_eq]

theorem mem_rank_agents {env : Env} {task : String} {ex : List String}
    {p : String × ℚ} :
    p ∈ rank_agents env task ex ↔
      p.1 ∈ env.agents ∧ p.1 ∉ DEFAULT_EXCLUDE ++ ex ∧
        p.2 = rankScore env task p.1 := by
  unfold rank_agents
  rw [mem_sortDesc, List.mem_filterMap]
  constructor
  · rintro ⟨a, ha, hfa⟩
    by_cases hex : a ∈ DEFAULT_EXCLUDE ++ ex
    · simp [hex] at hfa
    · rw [if_neg hex, Option.some.injEq] at hfa
      subst hfa
      exact ⟨ha, hex, rfl⟩
  · rintro ⟨hmem, hex, hs⟩
    refine ⟨p.1, hmem, ?_⟩
    rw [if_neg hex, Option.some.injEq]
    exact Prod.ext rfl hs.symm

theorem rank_agents_sorted (env : Env) (task : String) (ex : List String) :
    (rank_agents env task ex).Pairwise (fun a b => b.2 ≤ a.2) := by
  unfold rank_agents
  exact sortDesc_sorted _

theorem rank_agents_pairwise (env : Env) (task : String) (ex : List String)
    (h : env.agents.Pairwise (fun a b => strLtB a b = true)) :
    (rank_agents env task ex).Pairwise
      (fun a b => b.2 < a.2 ∨ (a.2 = b.2 ∧ strLtB a.1 b.1 = true)) := by
  unfold rank_agents
  refine pairwise_sortDesc ?_
  refine List.Pairwise.filterMap _ ?_ h
  intro a b hab x hx y hy
  by_cases hea : a ∈ DEFAULT_EXCLUDE ++ ex
  · simp [hea] at hx
  · by_cases heb : b ∈ DEFAULT_EXCLUDE ++ ex
    · simp [heb] at hy
    · simp only [if_neg hea, Option.some.injEq] at hx
      simp only [if_neg heb, Option.some.injEq] at hy
      cases hx
      cases hy
      exact hab

/-! ## `pick_top` machinery -/

theorem filter_pos_eq_takeWhile {l : List (String × ℚ)}
    (h : l.Pairwise (fun a b => b.2 ≤ a.2)) :
    (l.filter fun p => 0 < p.2) = l.takeWhile fun p => 0 < p.2 := by
  induction l with
  | nil => rfl
  | cons x xs ih =>
    rcases List.pairwise_cons.1 h with ⟨hx, hxs⟩
    by_cases hpos : (0 : ℚ) < x.2
    · simp [List.filter_cons, List.takeWhile_cons, hpos, ih hxs]
    · have hall : ∀ y ∈ xs, ¬ (0 : ℚ) < y.2 := fun y hy =>
        not_lt.2 ((hx y hy).trans (not_lt.1 hpos))
      simp only [List.filter_cons, List.takeWhile_cons, hpos, decide_False,
        Bool.false_eq_true, if_false]
      refine List.filter_eq_nil_iff.2 ?_
      intro y hy
      simpa using hall y hy

theorem takeWhile_take_comm (p : (String × ℚ) → Bool) (k : Nat)
    (l : List (String × ℚ)) :
    (l.take k).takeWhile p = (l.takeWhile p).take k := by
  induction l generalizing k with
  | nil => simp
  | cons x xs ih =>
    cases k with
    | zero => simp
    | succ n =>
      by_cases hp : p x
      · simp [List.take_succ_cons, List.takeWhile_cons, hp, ih]
      · simp [List.take_succ_cons, List.takeWhile_cons, hp]

/-! ## Registry lemmas -/

theorem charToLower_idem (c : Char) : c.toLower.toLower = c.toLower := by
  by_cases h : c.toNat ≥ 65 ∧ c.toNat ≤ 90
  · have hvalid : (c.toNat + 32).isValidChar := Or.inl (by omega)
    have hval : (Char.ofNat (c.toNat + 32)).toNat = c.toNat + 32 := by
      simp only [Char.ofNat]
      rw [dif_pos hvalid]
      rfl
    simp only [Char.toLower]
    rw [if_pos h, hval]
    rw [if_neg (by omega)]
  · simp only [Char.toLower]
    rw [if_neg h, if_neg h]

theorem pyLower_idem (s : String) : pyLower (pyLower s) = pyLower s := by
  unfold pyLower
  simp [List.map_map, Function.comp_def, charToLower_idem]

theorem dictFind_dictSet_self (k : String) (v : AgentCls) (r : List (String × AgentCls)) :
    dictFind k (dictSet k v r) = some v := by
  induction r with
  | nil => simp [dictSet, dictFind]
  | cons hd tl ih =>
    obtain ⟨k0, v0⟩ := hd
    by_cases h : k0 = k
    · subst h
      simp [dictSet, dictFind]
    · simp [dictSet, dictFind, h, ih]

theorem dictFind_isSome_iff (k : String) (r : List (String × AgentCls)) :
    (dictFind k r).isSome ↔ k ∈ r.map Prod.fst := by
  induction r with
  | nil => simp [dictFind]
  | cons hd tl ih =>
    obtain ⟨k0, v0⟩ := hd
    by_cases h : k0 = k
    · subst h
      simp [dictFind]
    · simp [dictFind, h, ih, Ne.symm h]

theorem mem_keys_dictSet {x k : String} {v : AgentCls} {r : List (String × AgentCls)}
    (hx : x ∈ (dictSet k v r).map Prod.fst) : x = k ∨ x ∈ r.map Prod.fst := by
  induction r with
  | nil => simpa [dictSet] using hx
  | cons hd tl ih =>
    obtain ⟨k0, v0⟩ := hd
    by_cases h : k0 = k
    · subst h
      simpa [dictSet] using hx
    · rw [dictSet] at hx
      simp only [if_neg h, List.map_cons, List.mem_cons] at hx
      rcases hx with rfl | hx'
      · exact Or.inr (by simp)
      · rcases ih hx' with h1 | h1
        · exact Or.inl h1
        · exact Or.inr (by simp [h1])

theorem Built.keys_lower {r : Registry} (hb : Built r) :
    ∀ x ∈ r.map Prod.fst, pyLower x = x := by
  induction hb with
  | nil => simp
  | step cls _ hreg ih =>
    intro x hx
    rw [register_agent] at hreg
    split at hreg
    · cases hreg
    · cases hreg
      rcases mem_keys_dictSet hx with rfl | hx'
      · exact pyLower_idem _
      · exact ih x hx'

theorem mem_insStr {x y : String} {l : List String} :
    x ∈ insStr y l ↔ x = y ∨ x ∈ l := by
  induction l with
  | nil => simp [insStr]
  | cons z zs ih =>
    simp only [insStr]
    split
    · simp [List.mem_cons]
    · simp only [List.mem_cons, ih]
      tauto

theorem mem_sortStrs {x : String} {l : List String} :
    x ∈ sortStrs l ↔ x ∈ l := by
  induction l with
  | nil => simp [sortStrs]
  | cons y ys ih => simp [sortStrs, mem_insStr, ih]

/-! ## Supervisor selection lemmas -/

theorem firstRanked_eq_specFirstSolver (excl : List String)
    (l : List (String × ℚ)) : firstRanked excl l = specFirstSolver excl l := by
  induction l with
  | nil => rfl
  | cons x xs ih =>
    obtain ⟨n, s⟩ := x
    by_cases h1 : n ∈ excl
    · simpa [firstRanked, specFirstSolver, List.filter_cons, h1] using ih
    · by_cases h2 : (0 : ℚ) < s
      · simp [firstRanked, specFirstSolver, List.filter_cons, h1, h2]
      · simpa [firstRanked, specFirstSolver, List.filter_cons, h1, h2] using ih

theorem firstRanked_not_excluded {excl : List String} {l : List (String × ℚ)}
    {n : String} (h : firstRanked excl l = some n) : n ∉ excl := by
  induction l with
  | nil => simp [firstRanked] at h
  | cons x xs ih =>
    obtain ⟨m, s⟩ := x
    rw [firstRanked] at h
    split at h
    · exact ih h
    · split at h
      · cases h
        assumption
      · exact ih h

theorem mem_seedLoop {excl avail : List String} :
    ∀ {l team : List String} {n : String}, n ∈ seedLoop excl avail l team →
      n ∈ team ∨ n ∉ excl := by
  intro l
  induction l with
  | nil =>
    intro team n h
    rw [seedLoop] at h
    exact Or.inl h
  | cons m rest ih =>
    intro team n h
    rw [seedLoop] at h
    split at h
    · exact ih h
    · split at h
      · exact ih h
      · split at h
        · exact ih h
        · next hm _ _ =>
          rcases ih h with hmem | hex
          · rcases List.mem_append.1 hmem with h1 | h1
            · exact Or.inl h1
            · simp only [List.mem_singleton] at h1
              subst h1
              exact Or.inr hm
          · exact Or.inr hex

theorem mem_fillLoop {excl : List String} {ts : Nat} :
    ∀ {l : List (String × ℚ)} {team : List String} {n : String},
      n ∈ fillLoop excl ts l team → n ∈ team ∨ n ∉ excl := by
  intro l
  induction l with
  | nil =>
    intro team n h
    rw [fillLoop] at h
    exact Or.inl h
  | cons p rest ih =>
    obtain ⟨m, sc⟩ := p
    intro team n h
    rw [fillLoop] at h
    split at h
    · exact ih h
    · split at h
      · exact ih h
      · next hskip _ =>
        have hm : m ∉ excl := fun hc => hskip (Or.inl hc)
        have hstep : ∀ {x : String}, x ∈ team ++ [m] → x ∈ team ∨ x ∉ excl := by
          intro x hx
          rcases List.mem_append.1 hx with h1 | h1
          · exact Or.inl h1
          · simp only [List.mem_singleton] at h1
            subst h1
            exact Or.inr hm
        dsimp only at h
        split at h
        · exact hstep h
        · rcases ih h with hmem | hex
          · exact hstep hmem
          · exact Or.inr hex

theorem fillLoop_nonpos {excl : List String} {ts : Nat} :
    ∀ {l : List (String × ℚ)} {team : List String},
      (∀ p ∈ l, p.2 ≤ 0) → fillLoop excl ts l team = team := by
  intro l
  induction l with
  | nil =>
    intro team _
    rw [fillLoop]
  | cons p rest ih =>
    obtain ⟨m, sc⟩ := p
    intro team hall
    rw [fillLoop]
    have hrest : ∀ q ∈ rest, q.2 ≤ 0 := fun q hq =>
      hall q (List.mem_cons_of_mem _ hq)
    split
    · exact ih hrest
    · rw [if_pos (hall (m, sc) (List.mem_cons_self _ _))]
      exact ih hrest


theorem pick_team_profile (s : Supervisor) (env : Env) (task : String) :
    (s.pick_team env task).2 =
      if s.use_team_profiles then infer_team_profile task else "general" := rfl

theorem teamFinal_ne_nil (s : Supervisor) (env : Env) (task : String) :
    s.teamFinal env task ≠ [] := by
  unfold Supervisor.teamFinal
  dsimp only
  split
  · simp
  · assumption

theorem pick_team_length (s : Supervisor) (env : Env) (task : String)
    (h1 : 1 ≤ s.team_size) :
    1 ≤ (s.pick_team env task).1.length ∧
      (s.pick_team env task).1.length ≤ s.team_size := by
  unfold Supervisor.pick_team
  dsimp only
  rw [List.length_take]
  refine ⟨le_min h1 ?_, min_le_left _ _⟩
  exact Nat.one_le_iff_ne_zero.2
    (by simpa [List.length_eq_zero] using teamFinal_ne_nil s env task)

theorem teamSeeded_not_excluded {s : Supervisor} {env : Env} {task : String}
    {n : String} (h : n ∈ s.teamSeeded env task) : n ∉ s.solver_exclude := by
  unfold Supervisor.teamSeeded at h
  split at h
  · unfold Supervisor.seed_team at h
    rcases mem_seedLoop h with h1 | h1
    · simp at h1
    · exact h1
  · simp at h

theorem teamFilled_not_excluded {s : Supervisor} {env : Env} {task : String}
    {n : String} (h : n ∈ s.teamFilled env task) : n ∉ s.solver_exclude := by
  unfold Supervisor.teamFilled at h
  dsimp only at h
  split at h
  · rcases mem_fillLoop h with h1 | h1
    · exact teamSeeded_not_excluded h1
    · exact h1
  · exact teamSeeded_not_excluded h

theorem pick_team_members_excluded {s : Supervisor} {env : Env} {task : String}
    {n : String} (hmem : n ∈ (s.pick_team env task).1)
    (hex : n ∈ s.solver_exclude) :
    (s.pick_team env task).1 = [s.solver_name] := by
  unfold Supervisor.pick_team Supervisor.teamFinal at hmem ⊢
  dsimp only at hmem ⊢
  by_cases hempty : s.teamFilled env task = []
  · rw [if_pos hempty] at hmem ⊢
    cases hk : s.team_size with
    | zero =>
      rw [hk] at hmem
      simp at hmem
    | succ k =>
      simp
  · rw [if_neg hempty] at hmem
    exact absurd hex (teamFilled_not_excluded ((List.take_sublist _ _).subset hmem))

theorem pick_solver_excluded {s : Supervisor} {env : Env} {task : String}
    (hauto : s.auto_solver = true)
    (hex : s.pick_solver env task ∈ s.solver_exclude) :
    s.pick_solver env task = s.solver_name := by
  unfold Supervisor.pick_solver at hex ⊢
  rw [hauto] at hex ⊢
  simp only [Bool.true_eq_false, if_false] at hex ⊢
  by_cases hfast : s.coderFastPath env task
  · rw [if_pos hfast] at hex
    exact absurd hex hfast.2.2
  · rw [if_neg hfast] at hex ⊢
    cases hfr : firstRanked s.solver_exclude (rank_agents env task []) with
    | some name =>
      rw [hfr] at hex
      exact absurd hex (firstRanked_not_excluded hfr)
    | none =>
      rfl

/-! ## `Supervisor.run` lemmas -/

theorem except_bind_ok {α β : Type} {x : Except PyErr α} {f : α → Except PyErr β}
    {b : β} (h : (x >>= f) = Except.ok b) :
    ∃ a, x = Except.ok a ∧ f a = Except.ok b := by
  cases x with
  | error e => simp [Bind.bind, Except.bind] at h
  | ok a => exact ⟨a, rfl, by simpa [Bind.bind, Except.bind] using h⟩

theorem run_team_solver_agent {s : Supervisor} {env : Env} {task : String}
    {r : RunResult} (hteam : s.auto_team = true)
    (h : s.run env task = Except.ok r) :
    r.solver_agent = s.synthesizer_name := by
  unfold Supervisor.run at h
  rw [hteam] at h
  simp only [if_true] at h
  obtain ⟨_, _, h⟩ := except_bind_ok h
  obtain ⟨_, _, h⟩ := except_bind_ok h
  obtain ⟨_, _, h⟩ := except_bind_ok h
  obtain ⟨_, _, h⟩ := except_bind_ok h
  obtain ⟨_, _, h⟩ := except_bind_ok h
  obtain ⟨_, _, h⟩ := except_bind_ok h
  split at h
  · obtain ⟨_, _, h⟩ := except_bind_ok h
    split at h
    · obtain ⟨_, _, h⟩ := except_bind_ok h
      cases h
      rfl
    · obtain ⟨_, _, h⟩ := except_bind_ok h
      cases h
      rfl
  · obtain ⟨_, _, h⟩ := except_bind_ok h
    split at h
    · obtain ⟨_, _, h⟩ := except_bind_ok h
      cases h
      rfl
    · obtain ⟨_, _, h⟩ := except_bind_ok h
      cases h
      rfl

theorem run_team_agents_eq {s : Supervisor} {env : Env} {task : String}
    {r : RunResult} (hteam : s.auto_team = true)
    (h : s.run env task = Except.ok r) :
    r.team_agents = some (s.pick_team env task).1 := by
  unfold Supervisor.run at h
  rw [hteam] at h
  simp only [if_true] at h
  obtain ⟨_, _, h⟩ := except_bind_ok h
  obtain ⟨_, _, h⟩ := except_bind_ok h
  obtain ⟨_, _, h⟩ := except_bind_ok h
  obtain ⟨_, _, h⟩ := except_bind_ok h
  obtain ⟨_, _, h⟩ := except_bind_ok h
  obtain ⟨_, _, h⟩ := except_bind_ok h
  split at h
  · obtain ⟨_, _, h⟩ := except_bind_ok h
    split at h
    · obtain ⟨_, _, h⟩ := except_bind_ok h
      cases h
      rfl
    · obtain ⟨_, _, h⟩ := except_bind_ok h
      cases h
      rfl
  · obtain ⟨_, _, h⟩ := except_bind_ok h
    split at h
    · obtain ⟨_, _, h⟩ := except_bind_ok h
      cases h
      rfl
    · obtain ⟨_, _, h⟩ := except_bind_ok h
      cases h
      rfl

theorem run_single_solver_agent {s : Supervisor} {env : Env} {task : String}
    {r : RunResult} (hteam : s.auto_team = false)
    (h : s.run env task = Except.ok r) :
    r.solver_agent = s.pick_solver env task := by
  unfold Supervisor.run at h
  rw [hteam] at h
  simp only [if_false, Bool.false_eq_true] at h
  obtain ⟨_, _, h⟩ := except_bind_ok h
  obtain ⟨_, _, h⟩ := except_bind_ok h
  obtain ⟨_, _, h⟩ := except_bind_ok h
  obtain ⟨_, _, h⟩ := except_bind_ok h
  obtain ⟨_, _, h⟩ := except_bind_ok h
  split at h
  · obtain ⟨_, _, h⟩ := except_bind_ok h
    split at h
    · obtain ⟨_, _, h⟩ := except_bind_ok h
      cases h
      rfl
    · obtain ⟨_, _, h⟩ := except_bind_ok h
      cases h
      rfl
  · obtain ⟨_, _, h⟩ := except_bind_ok h
    split at h
    · obtain ⟨_, _, h⟩ := except_bind_ok h
      cases h
      rfl
    · obtain ⟨_, _, h⟩ := except_bind_ok h
      cases h
      rfl

theorem run_planner_error {s : Supervisor} {env : Env} {task : String}
    {e : PyErr}
    (hpl : s.planner_name ∈ env.agents)
    (hcr : s.critic_name ∈ env.agents)
    (herr : ∀ ctx, env.runAgent s.planner_name task ctx = Except.error e) :
    s.run env task = Except.error e := by
  unfold Supervisor.run
  simp [createAgentE, hpl, hcr, herr, Bind.bind, Except.bind]

theorem run_single_solver_error {s : Supervisor} {env : Env} {task : String}
    {e : PyErr} {v : Val}
    (hteam : s.auto_team = false)
    (hpl : s.planner_name ∈ env.agents)
    (hcr : s.critic_name ∈ env.agents)
    (hplan : ∀ ctx, env.runAgent s.planner_name task ctx = Except.ok v)
    (hsolv : s.pick_solver env task ∈ env.agents)
    (herr : ∀ ctx, env.runAgent (s.pick_solver env task) task ctx = Except.error e) :
    s.run env task = Except.error e := by
  unfold Supervisor.run
  rw [hteam]
  simp [createAgentE, hpl, hcr, hplan, hsolv, herr, Bind.bind, Except.bind]

theorem run_single_critic_error {s : Supervisor} {env : Env} {task : String}
    {e : PyErr} {v w : Val}
    (hteam : s.auto_team = false)
    (hpl : s.planner_name ∈ env.agents)
    (hcr : s.critic_name ∈ env.agents)
    (hplan : ∀ ctx, env.runAgent s.planner_name task ctx = Except.ok v)
    (hsolv : s.pick_solver env task ∈ env.agents)
    (hsolvok : ∀ ctx, env.runAgent (s.pick_solver env task) task ctx = Except.ok w)
    (hneed : infer_task_type task ∈ CRITIC_TASK_TYPES)
    (herr : ∀ ctx, env.runAgent s.critic_name task ctx = Except.error e) :
    s.run env task = Except.error e := by
  unfold Supervisor.run
  rw [hteam]
  simp [createAgentE, hpl, hcr, hplan, hsolv, hsolvok, hneed, herr,
    runCriticPhase, Bind.bind, Except.bind]

theorem run_single_revise_error {s : Supervisor} {env : Env} {task : String}
    {e : PyErr} {v : Val} {d : String}
    {rev : String → String → Except PyErr String}
    (hteam : s.auto_team = false)
    (hpl : s.planner_name ∈ env.agents)
    (hcr : s.critic_name ∈ env.agents)
    (hplan : ∀ ctx, env.runAgent s.planner_name task ctx = Except.ok v)
    (hsolv : s.pick_solver env task ∈ env.agents)
    (hsolvok : ∀ ctx, env.runAgent (s.pick_solver env task) task ctx =
      Except.ok (Val.str d))
    (hneed : infer_task_type task ∉ CRITIC_TASK_TYPES)
    (hrev : env.reviseOf (s.pick_solver env task) = some rev)
    (herr : rev d (autoSkipText (infer_task_type task)) = Except.error e) :
    s.run env task = Except.error e := by
  unfold Supervisor.run
  rw [hteam]
  simp [createAgentE, hpl, hcr, hplan, hsolv, hsolvok, hneed, hrev, herr,
    Bind.bind, Except.bind]

theorem run_team_member_error {s : Supervisor} {env : Env} {task : String}
    {e : PyErr} {v : Val} {m : String} {rest : List String}
    (hteam : s.auto_team = true)
    (hpl : s.planner_name ∈ env.agents)
    (hcr : s.critic_name ∈ env.agents)
    (hplan : ∀ ctx, env.runAgent s.planner_name task ctx = Except.ok v)
    (hpt : (s.pick_team env task).1 = m :: rest)
    (hm : m ∈ env.agents)
    (herr : ∀ ctx, env.runAgent m task ctx = Except.error e) :
    s.run env task = Except.error e := by
  unfold Supervisor.run
  rw [hteam]
  simp [createAgentE, hpl, hcr, hplan, hpt, hm, herr, runTeamLoop,
    Bind.bind, Except.bind]

theorem run_team_synthesis_error {s : Supervisor} {env : Env} {task : String}
    {e : PyErr} {v : Val} {m om : String}
    (hteam : s.auto_team = true)
    (hpl : s.planner_name ∈ env.agents)
    (hcr : s.critic_name ∈ env.agents)
    (hplan : ∀ ctx, env.runAgent s.planner_name task ctx = Except.ok v)
    (hpt : (s.pick_team env task).1 = [m])
    (hm : m ∈ env.agents)
    (hmok : ∀ ctx, env.runAgent m task ctx = Except.ok (Val.str om))
    (hsy : s.synthesizer_name ∈ env.agents)
    (herr : ∀ ctx, env.runAgent s.synthesizer_name task ctx = Except.error e) :
    s.run env task = Except.error e := by
  unfold Supervisor.run
  rw [hteam]
  simp [createAgentE, hpl, hcr, hplan, hpt, hm, hmok, hsy, herr, runTeamLoop,
    Bind.bind, Except.bind]

/-! ## Remaining helper lemmas -/

theorem length_insDesc (x : String × ℚ) (l : List (String × ℚ)) :
    (insDesc x l).length = l.length + 1 := by
  induction l with
  | nil => rfl
  | cons y ys ih =>
    simp only [insDesc]
    split
    · rfl
    · simp [ih]

theorem length_sortDesc (l : List (String × ℚ)) :
    (sortDesc l).length = l.length := by
  induction l with
  | nil => rfl
  | cons x xs ih => simp [sortDesc, length_insDesc, ih]

theorem filterMap_exclude_length (ex0 : List String) (g : String → String × ℚ) :
    ∀ l : List String,
      (l.filterMap fun name =>
        if name ∈ ex0 then Option.none else some (g name)).length =
      (l.filter fun name => decide (name ∉ ex0)).length := by
  intro l
  induction l with
  | nil => rfl
  | cons x xs ih =>
    by_cases h : x ∈ ex0
    · simp [List.filterMap_cons, List.filter_cons, h, ih]
    · simp [List.filterMap_cons, List.filter_cons, h, ih]

theorem rank_agents_length (env : Env) (task : String) (ex : List String) :
    (rank_agents env task ex).length =
      (env.agents.filter fun n => decide (n ∉ DEFAULT_EXCLUDE ++ ex)).length := by
  unfold rank_agents
  rw [length_sortDesc]
  exact filterMap_exclude_length _ _ _

theorem baseScoreOf_error {env : Env} {task name : String} {e : PyErr}
    (h : env.canHandle name task = Except.error e) :
    baseScoreOf env task name = 0 := by
  simp [baseScoreOf, h]

/-- The concrete ranking of `env4` on a code-looking task. -/
theorem rank4_eval : rank_agents env4 "fix this" [] = [("analyst", 1), ("coder", 0)] := by
  norm_num [rank_agents, env4, scoreOf, baseScoreOf, usageBonusOf, prefBonusOf,
    prefGet, statGet, maxVal, sortDesc, insDesc, DEFAULT_EXCLUDE,
    List.filterMap, show ("coder" : String) ≠ "analyst" by decide]

/-! ## The claims -/

/-- Claim C1, as stated, is false: `register_agent` performs no duplicate
check. Registering a second class whose name collides case-insensitively
with an existing key succeeds (no `DuplicateNameError` exists anywhere in
the registry) and REPLACES the stored mapping, as this concrete
double registration shows. -/
theorem C1_counterexample :
    register_agent [] ⟨"Writer", 1⟩ = Except.ok [("writer", ⟨"Writer", 1⟩)] ∧
    register_agent [("writer", ⟨"Writer", 1⟩)] ⟨"WRITER", 2⟩ =
      Except.ok [("writer", ⟨"WRITER", 2⟩)] ∧
    get_agent_class [("writer", ⟨"WRITER", 2⟩)] "writer" = some ⟨"WRITER", 2⟩ :=
  ⟨rfl, rfl, rfl⟩

/-- Claim C1 (amended): a second `register` call with a name already
present (compared case-insensitively) does not fail — it silently
overwrites the registry's mapping for that name, so the last registration
wins; `register` only fails (with `ValueError`) when the lower-cased name
is empty. -/
theorem C1_amended_register_overwrites :
    ∀ (reg : Registry) (cls : AgentCls),
      (pyLower cls.name ≠ "" →
        register_agent reg cls =
          Except.ok (dictSet (pyLower cls.name) cls reg) ∧
        dictFind (pyLower cls.name) (dictSet (pyLower cls.name) cls reg) =
          some cls) ∧
      (pyLower cls.name = "" →
        register_agent reg cls =
          Except.error "Agent must have a non-empty name") := by
  intro reg cls
  constructor
  · intro h
    refine ⟨?_, dictFind_dictSet_self _ _ _⟩
    simp [register_agent, h]
  · intro h
    simp [register_agent, h]

/-- Witness for C1: the amended behaviour at the concrete registration of
a class named `Writer` into the empty registry. -/
theorem C1_witness :
    register_agent [] ⟨"Writer", 1⟩ =
      Except.ok (dictSet (pyLower "Writer") ⟨"Writer", 1⟩ []) ∧
    dictFind (pyLower "Writer") (dictSet (pyLower "Writer") ⟨"Writer", 1⟩ []) =
      some ⟨"Writer", 1⟩ :=
  (C1_amended_register_overwrites [] ⟨"Writer", 1⟩).1 (by decide)

/-- Claim C3: the classifier is total and evaluates its keyword rules
exactly as the ordered rule table
docs, explain, code, db_analysis, plan, meta over the lower-cased task
text, with first-match semantics and default `"other"`; in particular
`classify("explain the plan") = "explain"` even though the plan rule also
matches. -/
theorem C3_classifier_rule_order :
    (∀ task, classify_task_type task =
      evalRules "other" (pyLower task) classifyRuleTable) ∧
    classify_task_type "explain the plan" = "explain" ∧
    (plan_markers.any fun k => pyIn k (pyLower "explain the plan")) = true := by
  refine ⟨fun task => rfl, by decide, by decide⟩

/-- Claim C4, as stated, is false: with auto-selection enabled,
`_pick_solver` has a fast path that returns `coder` for code-looking tasks
before consulting the router, so the chosen solver is NOT always the first
positive non-excluded ranked candidate: on `"fix this"` the ranking's
first positive candidate is `analyst`, yet `coder` is chosen. -/
theorem C4_counterexample :
    cfg4.pick_solver env4 "fix this" = "coder" ∧
    specFirstSolver cfg4.solver_exclude (rank_agents env4 "fix this" []) =
      some "analyst" ∧
    ("coder" : String) ≠ "analyst" := by
  refine ⟨rfl, ?_, by decide⟩
  rw [rank4_eval]
  decide

/-- Claim C4 (amended): with auto-selection disabled the configured fixed
solver name is used directly. Otherwise, if the task contains a code
marker and `coder` is registered and not excluded, `coder` is chosen;
only otherwise is the chosen solver the first ranked candidate outside the
exclusion set with score > 0, falling back to the configured default
solver name when no such candidate exists (so selection never fails). -/
theorem C4_amended_pick_solver :
    (∀ (s : Supervisor) (env : Env) (task : String), s.auto_solver = false →
      s.pick_solver env task = s.solver_name) ∧
    (∀ (s : Supervisor) (env : Env) (task : String), s.auto_solver = true →
      s.coderFastPath env task → s.pick_solver env task = "coder") ∧
    (∀ (s : Supervisor) (env : Env) (task : String), s.auto_solver = true →
      ¬ s.coderFastPath env task →
      s.pick_solver env task =
        (specFirstSolver s.solver_exclude (rank_agents env task [])).getD
          s.solver_name) := by
  refine ⟨?_, ?_, ?_⟩
  · intro s env task h
    simp [Supervisor.pick_solver, h]
  · intro s env task h hfast
    simp [Supervisor.pick_solver, h, hfast]
  · intro s env task h hfast
    rw [Supervisor.pick_solver, if_neg (by simp [h]), if_neg hfast,
      firstRanked_eq_specFirstSolver]
    cases specFirstSolver s.solver_exclude (rank_agents env task []) with
    | some name => rfl
    | none => rfl

/-- Witness for C4: the amended characterization at a concrete
configuration with auto-selection disabled. -/
theorem C4_witness : cfg5.pick_solver envSynth "hello" = cfg5.solver_name :=
  C4_amended_pick_solver.1 cfg5 envSynth "hello" rfl

/-- Claim C5, as stated, is false: team seeding is keyed by
`infer_team_profile`, a separate classifier whose code rule fires BEFORE
its explain rule; on `"explain this error"` the Classifier returns
`explain` but the team profile is `code`. -/
theorem C5_counterexample :
    (cfg5.pick_team env4 "explain this error").2 = "code" ∧
    classify_task_type "explain this error" = "explain" ∧
    ("code" : String) ≠ "explain" := by
  refine ⟨by decide, by decide, by decide⟩

/-- Claim C5 (amended): the profile used to seed the team is
`infer_team_profile` of the task (or `"general"` when profiles are
disabled), an independent ordered-rule classifier with precedence
docs, code, explain, planning and default `"general"` over its own marker
lists — it is not the Classifier's TaskType. -/
theorem C5_amended_team_profile :
    (∀ (s : Supervisor) (env : Env) (task : String),
      (s.pick_team env task).2 =
        if s.use_team_profiles then infer_team_profile task else "general") ∧
    (∀ task, infer_team_profile task =
      evalRules "general" (pyLower task) teamProfileRuleTable) :=
  ⟨fun s env task => pick_team_profile s env task, fun _ => rfl⟩

/-- Claim C2, as stated, is false: the router's default exclusion set is
`{planner, critic}` only — it does not contain `synthesizer` — so the
synthesizer (whose `can_handle` returns 0.0) appears as a scored candidate
of `Router.rank` under the default exclusion, although the claim's set
`{planner, critic, synthesizer}` (the Supervisor's default
`solver_exclude`) contains it. -/
theorem C2_counterexample :
    (rank_agents envSynth "hello" []).map Prod.fst = ["synthesizer"] ∧
    "synthesizer" ∈ ["planner", "critic", "synthesizer"] ∧
    DEFAULT_EXCLUDE = ["planner", "critic"] ∧
    cfg5.solver_exclude = ["planner", "critic", "synthesizer"] :=
  ⟨rfl, by decide, rfl, rfl⟩

/-- Claim C2 (amended): every candidate scored by `Router.rank` is outside
the union of `DEFAULT_EXCLUDE = {planner, critic}` and the caller's
exclusions; an auto-selected solver or a seeded/filled team member lying
in the configured `solver_exclude` can only be the configured fallback
solver name; and in team mode the reported `solver_agent` is the
synthesizer's name (which the original claim's invariant therefore cannot
hold for). -/
theorem C2_amended_exclusion_invariant :
    (∀ (env : Env) (task : String) (ex : List String) (p : String × ℚ),
      p ∈ rank_agents env task ex → p.1 ∉ DEFAULT_EXCLUDE ∧ p.1 ∉ ex) ∧
    (∀ (s : Supervisor) (env : Env) (task : String), s.auto_solver = true →
      s.pick_solver env task ∈ s.solver_exclude →
      s.pick_solver env task = s.solver_name) ∧
    (∀ (s : Supervisor) (env : Env) (task : String) (n : String),
      n ∈ (s.pick_team env task).1 → n ∈ s.solver_exclude →
      (s.pick_team env task).1 = [s.solver_name]) ∧
    (∀ (s : Supervisor) (env : Env) (task : String) (r : RunResult),
      s.auto_team = true → s.run env task = Except.ok r →
      r.solver_agent = s.synthesizer_name) := by
  refine ⟨?_, ?_, ?_, ?_⟩
  · intro env task ex p hp
    have h := (mem_rank_agents.1 hp).2.1
    rw [List.mem_append] at h
    exact ⟨fun hc => h (Or.inl hc), fun hc => h (Or.inr hc)⟩
  · intro s env task h1 h2
    exact pick_solver_excluded h1 h2
  · intro s env task n h1 h2
    exact pick_team_members_excluded h1 h2
  · intro s env task r h1 h2
    exact run_team_solver_agent h1 h2

/-- Witness for C2: the candidate the concrete environment `envSynth`
produces is outside the default and caller exclusion sets. -/
theorem C2_witness :
    "synthesizer" ∉ DEFAULT_EXCLUDE ∧ "synthesizer" ∉ ([] : List String) :=
  C2_amended_exclusion_invariant.1 envSynth "hello" []
    ("synthesizer", rankScore envSynth "hello" "synthesizer")
    (mem_rank_agents.2 ⟨by decide, by decide, rfl⟩)

/-- Claim C6: a worker whose `can_handle` raises is still ranked, with its
base score treated as `0.0`, and ranking completes with one candidate per
non-excluded registered worker; while any exception from a `run` call
(planner, single solver, critic, revise, a team member, or the
synthesizer) propagates out of `Supervisor.run` unchanged. -/
theorem C6_failure_semantics :
    (∀ (env : Env) (task : String) (ex : List String) (n : String) (e : PyErr),
      env.canHandle n task = Except.error e → n ∈ env.agents →
      n ∉ DEFAULT_EXCLUDE ++ ex →
      (n, (0 : ℚ)
          + usageBonusOf (env.statsFor (classify_task_type task))
              (if env.statsFor (classify_task_type task) = [] then 0
                else maxVal (env.statsFor (classify_task_type task))) n
          + prefBonusOf env (classify_task_type task) n) ∈
        rank_agents env task ex ∧
      (rank_agents env task ex).length =
        (env.agents.filter fun x => decide (x ∉ DEFAULT_EXCLUDE ++ ex)).length) ∧
    (∀ (s : Supervisor) (env : Env) (task : String) (e : PyErr),
      s.planner_name ∈ env.agents → s.critic_name ∈ env.agents →
      (∀ ctx, env.runAgent s.planner_name task ctx = Except.error e) →
      s.run env task = Except.error e) ∧
    (∀ (s : Supervisor) (env : Env) (task : String) (e : PyErr) (v : Val),
      s.auto_team = false →
      s.planner_name ∈ env.agents → s.critic_name ∈ env.agents →
      (∀ ctx, env.runAgent s.planner_name task ctx = Except.ok v) →
      s.pick_solver env task ∈ env.agents →
      (∀ ctx, env.runAgent (s.pick_solver env task) task ctx = Except.error e) →
      s.run env task = Except.error e) ∧
    (∀ (s : Supervisor) (env : Env) (task : String) (e : PyErr) (v w : Val),
      s.auto_team = false →
      s.planner_name ∈ env.agents → s.critic_name ∈ env.agents →
      (∀ ctx, env.runAgent s.planner_name task ctx = Except.ok v) →
      s.pick_solver env task ∈ env.agents →
      (∀ ctx, env.runAgent (s.pick_solver env task) task ctx = Except.ok w) →
      infer_task_type task ∈ CRITIC_TASK_TYPES →
      (∀ ctx, env.runAgent s.critic_name task ctx = Except.error e) →
      s.run env task = Except.error e) ∧
    (∀ (s : Supervisor) (env : Env) (task : String) (e : PyErr) (v : Val)
        (d : String) (rev : String → String → Except PyErr String),
      s.auto_team = false →
      s.planner_name ∈ env.agents → s.critic_name ∈ env.agents →
      (∀ ctx, env.runAgent s.planner_name task ctx = Except.ok v) →
      s.pick_solver env task ∈ env.agents →
      (∀ ctx, env.runAgent (s.pick_solver env task) task ctx =
        Except.ok (Val.str d)) →
      infer_task_type task ∉ CRITIC_TASK_TYPES →
      env.reviseOf (s.pick_solver env task) = some rev →
      rev d (autoSkipText (infer_task_type task)) = Except.error e →
      s.run env task = Except.error e) ∧
    (∀ (s : Supervisor) (env : Env) (task : String) (e : PyErr) (v : Val)
        (m : String) (rest : List String),
      s.auto_team = true →
      s.planner_name ∈ env.agents → s.critic_name ∈ env.agents →
      (∀ ctx, env.runAgent s.planner_name task ctx = Except.ok v) →
      (s.pick_team env task).1 = m :: rest → m ∈ env.agents →
      (∀ ctx, env.runAgent m task ctx = Except.error e) →
      s.run env task = Except.error e) ∧
    (∀ (s : Supervisor) (env : Env) (task : String) (e : PyErr) (v : Val)
        (m om : String),
      s.auto_team = true →
      s.planner_name ∈ env.agents → s.critic_name ∈ env.agents →
      (∀ ctx, env.runAgent s.planner_name task ctx = Except.ok v) →
      (s.pick_team env task).1 = [m] → m ∈ env.agents →
      (∀ ctx, env.runAgent m task ctx = Except.ok (Val.str om)) →
      s.synthesizer_name ∈ env.agents →
      (∀ ctx, env.runAgent s.synthesizer_name task ctx = Except.error e) →
      s.run env task = Except.error e) := by
  refine ⟨?_, ?_, ?_, ?_, ?_, ?_, ?_⟩
  · intro env task ex n e herr hmem hex
    refine ⟨?_, rank_agents_length env task ex⟩
    have hmemr : (n, rankScore env task n) ∈ rank_agents env task ex :=
      mem_rank_agents.2 ⟨hmem, hex, rfl⟩
    have h2 : rankScore env task n =
        (0 : ℚ)
          + usageBonusOf (env.statsFor (classify_task_type task))
              (if env.statsFor (classify_task_type task) = [] then 0
                else maxVal (env.statsFor (classify_task_type task))) n
          + prefBonusOf env (classify_task_type task) n := by
      simp only [rankScore, scoreOf, baseScoreOf_error herr]
    rw [← h2]
    exact hmemr
  · intro s env task e h1 h2 h3
    exact run_planner_error h1 h2 h3
  · intro s env task e v h1 h2 h3 h4 h5 h6
    exact run_single_solver_error h1 h2 h3 h4 h5 h6
  · intro s env task e v w h1 h2 h3 h4 h5 h6 h7 h8
    exact run_single_critic_error h1 h2 h3 h4 h5 h6 h7 h8
  · intro s env task e v d rev h1 h2 h3 h4 h5 h6 h7 h8 h9
    exact run_single_revise_error h1 h2 h3 h4 h5 h6 h7 h8 h9
  · intro s env task e v m rest h1 h2 h3 h4 h5 h6 h7
    exact run_team_member_error h1 h2 h3 h4 h5 h6 h7
  · intro s env task e v m om h1 h2 h3 h4 h5 h6 h7 h8 h9
    exact run_team_synthesis_error h1 h2 h3 h4 h5 h6 h7 h8 h9

/-- Witness for C6: in `envErr` the single worker's `can_handle` raises,
yet it is ranked (with base score 0). -/
theorem C6_witness :
    ("analyst", (0 : ℚ)
        + usageBonusOf (envErr.statsFor (classify_task_type "t"))
            (if envErr.statsFor (classify_task_type "t") = [] then 0
              else maxVal (envErr.statsFor (classify_task_type "t"))) "analyst"
        + prefBonusOf envErr (classify_task_type "t") "analyst") ∈
      rank_agents envErr "t" [] ∧
    (rank_agents envErr "t" []).length =
      (envErr.agents.filter fun x =>
        decide (x ∉ DEFAULT_EXCLUDE ++ ([] : List String))).length :=
  C6_failure_semantics.1 envErr "t" [] "analyst" (PyErr.agentError 7) rfl
    (by decide) (by decide)

/-- Claim C7: for every non-excluded registered worker, the final score is
base capability score plus a usage bonus of `0.2 * (count / max_count)`
when `max_count > 0` (else 0) plus a flat `0.3` preference bonus when the
task type is in the worker's configured preferred set, with no upper
clamp; and (given the registry's lexicographically sorted name list) the
candidates come back sorted descending by score with exact ties in
lexicographic name order. -/
theorem C7_rank_scoring :
    ∀ (env : Env) (task : String) (ex : List String),
      env.agents.Pairwise (fun a b => strLtB a b = true) →
      ((∀ p : String × ℚ, p ∈ rank_agents env task ex ↔
          p.1 ∈ env.agents ∧ p.1 ∉ DEFAULT_EXCLUDE ++ ex ∧
            p.2 = specFinalScore env task p.1) ∧
        (rank_agents env task ex).Pairwise
          (fun a b => b.2 < a.2 ∨ (a.2 = b.2 ∧ strLtB a.1 b.1 = true))) := by
  intro env task ex h
  refine ⟨?_, rank_agents_pairwise env task ex h⟩
  intro p
  rw [mem_rank_agents, rankScore_eq_specFinalScore]

/-- Witness for C7: the ranking of the concrete two-agent environment is
sorted descending with lexicographic tie-breaking. -/
theorem C7_witness :
    (rank_agents env4 "fix this" []).Pairwise
      (fun a b => b.2 < a.2 ∨ (a.2 = b.2 ∧ strLtB a.1 b.1 = true)) :=
  (C7_rank_scoring env4 "fix this" [] (by decide)).2

/-- Claim C8: `pick_top` returns exactly the names of the positive-scoring
prefix of the ranking, truncated to `k`: taking the first `k` ranked
entries and keeping the positive ones coincides with keeping the positive
ones and taking the first `k`, because the ranking is sorted descending;
fewer than `k` names come back when fewer positive candidates exist, and
no candidate is fabricated. -/
theorem C8_pick_top_round_trip :
    ∀ (env : Env) (task : String) (k : Nat) (ex : List String),
      pick_top env task k ex =
        ((((rank_agents env task ex).filter fun p => 0 < p.2).map
          Prod.fst).take k) := by
  intro env task k ex
  unfold pick_top
  dsimp only
  have hs := rank_agents_sorted env task ex
  have hs' : ((rank_agents env task ex).take k).Pairwise
      (fun a b => b.2 ≤ a.2) :=
    List.Pairwise.sublist (List.take_sublist _ _) hs
  rw [filter_pos_eq_takeWhile hs', takeWhile_take_comm,
    ← filter_pos_eq_takeWhile hs, List.map_take]

/-- Claim C9: `__init__` normalizes `team_size` to at least 1; in every
team-mode run the selected team satisfies `1 ≤ len ≤ team_size`
(`team_size` being the Supervisor's normalized attribute); and when
profiles are off and ranking yields no positive-scoring candidate, the
team is exactly the single configured default solver. -/
theorem C9_team_size_bound :
    (∀ (pn cn sn syn : String) (aSolver aTeam : Bool) (ts : Int)
        (utp : Bool) (se : Option (List String)),
      1 ≤ (Supervisor.init pn cn sn syn aSolver aTeam ts utp se).team_size) ∧
    (∀ (s : Supervisor) (env : Env) (task : String),
      1 ≤ s.team_size →
      1 ≤ (s.pick_team env task).1.length ∧
        (s.pick_team env task).1.length ≤ s.team_size) ∧
    (∀ (s : Supervisor) (env : Env) (task : String) (r : RunResult),
      1 ≤ s.team_size → s.auto_team = true →
      s.run env task = Except.ok r →
      ∃ l, r.team_agents = some l ∧ 1 ≤ l.length ∧ l.length ≤ s.team_size) ∧
    (∀ (s : Supervisor) (env : Env) (task : String),
      1 ≤ s.team_size → s.use_team_profiles = false →
      (∀ p ∈ rank_agents env task [], p.2 ≤ 0) →
      (s.pick_team env task).1 = [s.solver_name]) := by
  refine ⟨?_, ?_, ?_, ?_⟩
  · intro pn cn sn syn aSolver aTeam ts utp se
    simp only [Supervisor.init]
    have h : (1 : Int) ≤ max 1 ts := le_max_left _ _
    omega
  · intro s env task h1
    exact pick_team_length s env task h1
  · intro s env task r h1 h2 h3
    exact ⟨(s.pick_team env task).1, run_team_agents_eq h2 h3,
      pick_team_length s env task h1⟩
  · intro s env task h1 h2 h3
    have hprof : s.teamProfile task = "general" := by
      simp [Supervisor.teamProfile, h2]
    have hseed : s.teamSeeded env task = [] := by
      simp [Supervisor.teamSeeded, hprof]
    have hfill : s.teamFilled env task = [] := by
      unfold Supervisor.teamFilled
      rw [hseed]
      dsimp only
      split
      · exact fillLoop_nonpos h3
      · rfl
    have hfin : s.teamFinal env task = [s.solver_name] := by
      unfold Supervisor.teamFinal
      rw [hfill]
      rfl
    show (s.teamFinal env task).take s.team_size = _
    rw [hfin]
    cases hk : s.team_size with
    | zero => omega
    | succ k => simp

/-- Witness for C9: the normalized team size of a concretely constructed
Supervisor is at least one. -/
theorem C9_witness :
    1 ≤ (Supervisor.init "planner" "critic" "analyst" "synthesizer"
      false true 0 true Option.none).team_size :=
  C9_team_size_bound.1 "planner" "critic" "analyst" "synthesizer"
    false true 0 true Option.none

/-- Claim C10: registration stores workers under lower-cased keys, lookup
lower-cases its query, so retrieval round-trips through lower-casing:
`get_agent_class reg m = get_agent_class reg (m.lower())`, lookup succeeds
exactly when `m.lower()` is a registered key, every name `list_agents`
returns is already lower-case, and `create_agent` resolves through the
same lookup. -/
theorem C10_registry_case_insensitive :
    ∀ (reg : Registry), Built reg →
      (∀ m, get_agent_class reg m = get_agent_class reg (pyLower m)) ∧
      (∀ m, (get_agent_class reg m).isSome ↔ pyLower m ∈ reg.map Prod.fst) ∧
      (∀ k ∈ list_agents reg, pyLower k = k) ∧
      (∀ m, create_agent reg m = get_agent_class reg m) := by
  intro reg hb
  refine ⟨?_, ?_, ?_, fun m => rfl⟩
  · intro m
    unfold get_agent_class
    rw [pyLower_idem]
  · intro m
    unfold get_agent_class
    exact dictFind_isSome_iff _ _
  · intro k hk
    exact hb.keys_lower k (mem_sortStrs.1 hk)

/-- Witness for C10: the registry holding one worker registered as
`Writer` answers queries for `WRITER` and `writer` identically. -/
theorem C10_witness :
    get_agent_class [("writer", ⟨"Writer", 1⟩)] "WRITER" =
      get_agent_class [("writer", ⟨"Writer", 1⟩)] (pyLower "WRITER") :=
  (C10_registry_case_insensitive [("writer", ⟨"Writer", 1⟩)]
    (Built.step ⟨"Writer", 1⟩ Built.nil rfl)).1 "WRITER"
